import Mathlib

/-!
Verification of the TI-Feed-Teams-Automation pipeline.

We shallowly embed the JavaScript sources as executable Lean definitions:
- `ThreatFilter` (utils/threatFilter.js): keyword filtering and classification;
- `generateEntryId` (fetch-and-post-enhanced.js): stable entry identity;
- `processFeeds` / `updateState` (fetch-and-post-enhanced.js): dedup, backfill
  guard and seen-map persistence;
- `postToTeams` (post-to-teams.js): delivery retry loop with 429 backoff;
- `StateManager` (utils/stateManager.js): lock acquisition and atomic save.

JavaScript numbers that can be `NaN` are modelled as `Option Nat` (with `none`
playing the role of `NaN`: all `NaN` comparisons are false and `NaN` is falsy).
Host functions (the `Date` parser, `Date.now()`, `new Date().toISOString()`,
and the regex-based indicator extractor) are abstracted into a `JsEnv` record
over which all theorems quantify.
-/

namespace TIFeed

/-! ## JavaScript string and number primitives -/

/-- ASCII lowercasing of one character, as `String.prototype.toLowerCase`
acts on ASCII: `A`–`Z` (code points 65–90) map to `a`–`z`, everything else
is unchanged. -/
def charLower (c : Char) : Char :=
  if 65 ≤ c.toNat ∧ c.toNat ≤ 90 then Char.ofNat (c.toNat + 32) else c

/-- Embeds `s.toLowerCase()` (ASCII fragment). -/
def jsToLower (s : String) : String := ⟨s.data.map charLower⟩

/-- Does the character list start with the given needle? -/
def seqStartsWith : List Char → List Char → Bool
  | _, [] => true
  | [], _ :: _ => false
  | a :: as, b :: bs => a = b && seqStartsWith as bs

/-- Does the character list contain the needle as a contiguous subsequence? -/
def seqContains (needle : List Char) : List Char → Bool
  | [] => seqStartsWith [] needle
  | c :: rest => seqStartsWith (c :: rest) needle || seqContains needle rest

/-- Embeds `hay.includes(sub)` for strings. -/
def jsIncludes (hay sub : String) : Bool := seqContains sub.data hay.data

/-- Is the character ASCII whitespace (the characters `String.prototype.trim`
strips, restricted to ASCII)? -/
def isWsChar (c : Char) : Bool :=
  c = ' ' || c = '\t' || c = '\n' || c = '\r' || c = '\x0b' || c = '\x0c'

/-- Embeds `s.trim()`: strip leading and trailing whitespace. -/
def jsTrim (s : String) : String :=
  ⟨((s.data.dropWhile isWsChar).reverse.dropWhile isWsChar).reverse⟩

/-- JavaScript truthiness of a possibly-undefined string
(`undefined` and `""` are falsy). -/
def strTruthy : Option String → Bool
  | some s => s ≠ ""
  | none => false

/-- Embeds `a || b` on possibly-undefined strings. -/
def jsOrStr (a b : Option String) : Option String := if strTruthy a then a else b

/-- JavaScript truthiness of a number-or-NaN (`NaN` and `0` are falsy). -/
def natTruthy : Option Nat → Bool
  | some n => n ≠ 0
  | none => false

/-- Embeds `a < b` on numbers-or-NaN: any comparison involving `NaN` is false. -/
def jsLt : Option Nat → Option Nat → Bool
  | some a, some b => a < b
  | _, _ => false

/-! ## Host environment (`Date`, regex engine) -/

/-- Indicator sets produced by `ThreatFilter.extractIndicators`. -/
structure Indicators where
  ips : List String
  domains : List String
  hashes : List String
  cves : List String
  urls : List String
deriving Repr, DecidableEq

/-- Abstraction of the JavaScript host facilities the pipeline uses:
the clock, ISO timestamp rendering, `Date.parse` (`none` = invalid date /
`NaN`), and the regex-based indicator extractor of `extractIndicators`. -/
structure JsEnv where
  nowMs : Nat
  nowIso : String
  dateParse : String → Option Nat
  extractIndicators : String → Indicators

/-- A concrete environment used to instantiate closed examples. -/
def sampleEnv : JsEnv where
  nowMs := 1700000000000
  nowIso := "2023-11-14T22:13:20.000Z"
  dateParse := fun _ => none
  extractIndicators := fun _ => ⟨[], [], [], [], []⟩

/-! ## Data model -/

/-- A parsed URL as produced by a successful `new URL(link)`:
the mutable components the code touches. `search` and `hashFrag` carry their
`?`/`#` prefixes as in the `URL` API. -/
structure UrlParts where
  scheme : String
  host : String
  path : String
  search : String := ""
  hashFrag : String := ""
deriving Repr, DecidableEq

/-- An entry's `link` field: either a string `new URL` fails to parse
(the `catch` branch of `generateEntryId`) or a parsed URL. -/
inductive LinkVal
  | raw (s : String)
  | parsed (u : UrlParts)
deriving Repr, DecidableEq

/-- Classification attached by `ThreatFilter.classifyEntry`. -/
structure Classification where
  threatType : String
  severity : String
  indicators : Indicators
  confidence : Nat
  classificationTimestamp : String
deriving Repr, DecidableEq

/-- A feed entry. Optional fields model possibly-undefined JS object fields.
`source`, `classification`, `filtered` and `filterTimestamp` are added by the
pipeline (`processFeeds` enrichment and `filterEntry` enhancement). -/
structure Entry where
  guid : Option String := none
  link : Option LinkVal := none
  title : Option String := none
  description : Option String := none
  publishedDate : Option String := none
  pubDate : Option String := none
  source : Option String := none
  classification : Option Classification := none
  filtered : Bool := false
  filterTimestamp : Option String := none
deriving Repr, DecidableEq

/-- Per-source / global filter policy (`filters` objects). A `none` field is
an absent key, so the object-spread merge lets the other layer's value win. -/
structure Filters where
  maxAge : Option Nat := none
  requiredKeywords : Option (List String) := none
  blockedKeywords : Option (List String) := none
  minimumSeverity : Option String := none
  priorityKeywords : Option (List String) := none
deriving Repr, DecidableEq

/-- Embeds `{...globalFilters, ...feedConfig.filters}`: feed keys override global. -/
def mergeFilters (g f : Filters) : Filters where
  maxAge := f.maxAge <|> g.maxAge
  requiredKeywords := f.requiredKeywords <|> g.requiredKeywords
  blockedKeywords := f.blockedKeywords <|> g.blockedKeywords
  minimumSeverity := f.minimumSeverity <|> g.minimumSeverity
  priorityKeywords := f.priorityKeywords <|> g.priorityKeywords

/-- Embeds `ThreatFilter` construction parameters (`globalFilters`, `mutedTypes`). -/
structure FilterCfg where
  globalFilters : Filters := {}
  mutedTypes : List String := []
deriving Repr, DecidableEq

/-! ## ThreatFilter (src/utils/threatFilter.js) -/

/-- Baseline relevant keywords used when no `requiredKeywords` are defined. -/
def relevantKeywords : List String :=
  ["security", "vulnerability", "threat", "malware", "exploit", "patch",
   "update", "advisory", "alert", "breach", "attack", "cve-", "cybersecurity",
   "cyber", "risk", "incident", "ransomware", "phishing", "apt"]

/-- The text a filter inspects: `` `${entry.title} ${entry.description || ''}`
.toLowerCase() `` (an undefined title interpolates as `"undefined"`). -/
def filterText (e : Entry) : String :=
  jsToLower ((e.title.getD "undefined") ++ " " ++ (e.description.getD ""))

/-- Embeds `ThreatFilter.hasRequiredKeywords`: vacuously true on an empty/absent
keyword list, else true iff some keyword occurs in the entry text. -/
def hasRequiredKeywords (e : Entry) (requiredKeywords : Option (List String)) : Bool :=
  let l := requiredKeywords.getD []
  if l.isEmpty then true
  else l.any fun k => jsIncludes (filterText e) (jsToLower k)

/-- Embeds `ThreatFilter.hasBlockedKeywords`: false on an empty/absent list, else
true iff some blocked keyword occurs in the entry text. -/
def hasBlockedKeywords (e : Entry) (blockedKeywords : Option (List String)) : Bool :=
  let l := blockedKeywords.getD []
  if l.isEmpty then false
  else l.any fun k => jsIncludes (filterText e) (jsToLower k)

/-- Embeds `ThreatFilter.checkAge`: entries pass when `maxAge` is falsy; otherwise
`(now - entryDate) / 86400000 <= maxAge` must hold, which over the reals is
`now - entryDate <= maxAge * 86400000`; an unparseable date (`NaN`) fails. -/
def checkAge (env : JsEnv) (e : Entry) (maxAge : Option Nat) : Bool :=
  if !natTruthy maxAge then true
  else
    match (jsOrStr e.publishedDate e.pubDate).bind env.dateParse with
    | none => false
    | some t => (env.nowMs : Int) - t ≤ (maxAge.getD 0 : Int) * 86400000

/-- The ordered severity scale. -/
def severityLevels : List String := ["info", "low", "medium", "high", "critical"]

/-- Embeds `Array.prototype.indexOf`: index of first occurrence, `-1` if absent. -/
def jsIndexOf : List String → String → Int
  | [], _ => -1
  | a :: rest, x => if a = x then 0 else
      let r := jsIndexOf rest x
      if r = -1 then -1 else r + 1

/-- Embeds `ThreatFilter.classifySeverity`: first matching keyword table wins. -/
def classifySeverity (text : String) : String :=
  if ["critical", "emergency", "zero-day", "rce", "remote code execution"].any
      (jsIncludes text) then "critical"
  else if ["high", "severe", "exploit", "active attack", "widespread"].any
      (jsIncludes text) then "high"
  else if ["medium", "moderate", "vulnerability", "patch available"].any
      (jsIncludes text) then "medium"
  else if ["low", "minor", "informational"].any (jsIncludes text) then "low"
  else "info"

/-- The threat-type pattern table, in object insertion order. -/
def threatTypePatterns : List (String × List String) :=
  [("vulnerability", ["vulnerability", "cve-", "security update", "patch", "exploit"]),
   ("malware", ["malware", "trojan", "ransomware", "virus", "backdoor"]),
   ("apt", ["apt", "advanced persistent", "nation-state", "targeted attack"]),
   ("data_breach", ["data breach", "data leak", "breach", "stolen data"]),
   ("phishing", ["phishing", "spear phishing", "email attack", "social engineering"]),
   ("ddos", ["ddos", "denial of service", "botnet"]),
   ("insider_threat", ["insider threat", "rogue employee", "internal threat"]),
   ("supply_chain", ["supply chain", "third party", "vendor compromise"])]

/-- Embeds `ThreatFilter.classifyThreatType`: first type with a matching keyword. -/
def classifyThreatType (text : String) : String :=
  match threatTypePatterns.find? (fun p => p.2.any (jsIncludes text)) with
  | some p => p.1
  | none => "general"

/-- Embeds `ThreatFilter.boostSeverity`: one level up, saturating at `critical`
(an unknown severity indexes at `-1` and boosts to `info`). -/
def boostSeverity (currentSeverity : String) : String :=
  let currentIndex := jsIndexOf severityLevels currentSeverity
  let boostedIndex := min (currentIndex + 1) 4
  (severityLevels.get? boostedIndex.toNat).getD "undefined"

/-- Embeds `ThreatFilter.meetsSeverityRequirement` via `indexOf` comparison. -/
def meetsSeverityRequirement (severity : String) (minimumSeverity : Option String) : Bool :=
  if !strTruthy minimumSeverity then true
  else jsIndexOf severityLevels severity ≥
    jsIndexOf severityLevels (minimumSeverity.getD "")

/-- Embeds `ThreatFilter.calculateConfidence`: base 50 plus bonuses, capped at 100. -/
def calculateConfidence (text threatType severity : String) : Nat :=
  let c1 := 50 + (if threatType ≠ "general" then 20 else 0)
  let c2 := c1 + (if severity = "critical" ∨ severity = "high" then 15 else 0)
  let c3 := c2 + (if ["cve", "nist", "mitre", "cisa", "microsoft", "advisory"].any
      (jsIncludes text) then 15 else 0)
  let c4 := c3 + (if ["exploit", "proof of concept", "technical details", "patch"].any
      (jsIncludes text) then 10 else 0)
  min c4 100

/-- Embeds `ThreatFilter.classifyEntry` (pure modulo the `JsEnv` host functions). -/
def classifyEntry (env : JsEnv) (e : Entry) (filters : Filters) : Classification :=
  let text := filterText e
  let threatType := classifyThreatType text
  let severity0 := classifySeverity text
  let severity :=
    match filters.priorityKeywords with
    | some pks =>
        if pks.any (fun k => jsIncludes text (jsToLower k)) then boostSeverity severity0
        else severity0
    | none => severity0
  { threatType := threatType
    severity := severity
    indicators := env.extractIndicators text
    confidence := calculateConfidence text threatType severity
    classificationTimestamp := env.nowIso }

/-- Embeds `ThreatFilter.filterEntry`: the full accept/reject pipeline. The
blocked-keyword branch is kept exactly as written in the source, including its
`!isRelevant` guard that follows the early `return null` on `!isRelevant`. -/
def filterEntry (env : JsEnv) (cfg : FilterCfg) (e : Entry) (feedFilters : Filters) :
    Option Entry :=
  let filters := mergeFilters cfg.globalFilters feedFilters
  if !checkAge env e filters.maxAge then none
  else
    let hasRequired := hasRequiredKeywords e filters.requiredKeywords
    let hasBaselineRelevant := hasRequiredKeywords e (some relevantKeywords)
    let isRelevant := hasRequired || hasBaselineRelevant
    if !isRelevant then none
    else if !isRelevant && hasBlockedKeywords e filters.blockedKeywords then none
    else
      let c := classifyEntry env e filters
      if cfg.mutedTypes.contains c.threatType then none
      else if !meetsSeverityRequirement c.severity filters.minimumSeverity then none
      else some { e with
        classification := some c
        filtered := true
        filterTimestamp := some env.nowIso }

/-! ## Entry identity (ThreatIntelBot.generateEntryId) -/

/-- UTF-8 encoding of one code point as a byte list (what
`Buffer.from(content)` produces per character). -/
def utf8Char (n : Nat) : List Nat :=
  if n < 0x80 then [n]
  else if n < 0x800 then [0xC0 + n / 64, 0x80 + n % 64]
  else if n < 0x10000 then
    [0xE0 + n / 4096, 0x80 + (n / 64) % 64, 0x80 + n % 64]
  else
    [0xF0 + n / 262144, 0x80 + (n / 4096) % 64, 0x80 + (n / 64) % 64, 0x80 + n % 64]

/-- UTF-8 bytes of a string. -/
def utf8Bytes (s : String) : List Nat :=
  s.data.foldr (fun c acc => utf8Char c.toNat ++ acc) []

/-- The standard base64 alphabet. -/
def b64Alphabet : List Char :=
  "ABCDEFGHIJKLMNOPQRSTUVWXYZabcdefghijklmnopqrstuvwxyz0123456789+/".data

/-- The base64 digit for a 6-bit value. -/
def b64Char (n : Nat) : Char := (b64Alphabet.get? n).getD 'A'

/-- Base64 encoding of a byte list, three bytes at a time with `=` padding
(`Buffer.prototype.toString('base64')`). -/
def base64Chunks : List Nat → List Char
  | [] => []
  | [a] => [b64Char (a / 4), b64Char (a % 4 * 16), '=', '=']
  | [a, b] => [b64Char (a / 4), b64Char (a % 4 * 16 + b / 16), b64Char (b % 16 * 4), '=']
  | a :: b :: c :: rest =>
      b64Char (a / 4) :: b64Char (a % 4 * 16 + b / 16) ::
      b64Char (b % 16 * 4 + c / 64) :: b64Char (c % 64) :: base64Chunks rest

/-- Embeds `Buffer.from(s).toString('base64')`. -/
def base64Encode (bytes : List Nat) : String := ⟨base64Chunks bytes⟩

/-- Embeds `pathname.replace(/\/$/, '')`: drop one trailing slash if present. -/
def stripTrailingSlash (s : String) : String :=
  if s.data.getLast? = some '/' then ⟨s.data.dropLast⟩ else s

/-- Embeds `URL.prototype.toString` on the modelled components (the code clears
`search` and `hash` before serializing, so userinfo/port are irrelevant). -/
def serializeUrl (u : UrlParts) : String :=
  u.scheme ++ "://" ++ u.host ++ u.path ++ u.search ++ u.hashFrag

/-- The link normalization of `generateEntryId`: clear fragment and query,
drop one trailing slash from the path, serialize, lowercase. -/
def normalizeUrl (u : UrlParts) : String :=
  jsToLower (serializeUrl { u with hashFrag := "", search := "",
                                   path := stripTrailingSlash u.path })

/-- Truthiness of the `link` field (an empty string link is falsy). -/
def linkTruthy : Option LinkVal → Bool
  | some (.raw s) => s ≠ ""
  | some (.parsed _) => true
  | none => false

/-- Embeds `ThreatIntelBot.generateEntryId`: prefer a truthy `guid` (trimmed), else
the normalized link (or the raw link string when `new URL` throws), else
`'h:' +` base64 of `` `${title || ''}|${publishedDate || ''}` ``. -/
def generateEntryId (e : Entry) : String :=
  if strTruthy e.guid then jsTrim (e.guid.getD "")
  else if linkTruthy e.link then
    match e.link with
    | some (.parsed u) => normalizeUrl u
    | some (.raw s) => s
    | none => ""
  else
    "h:" ++ base64Encode (utf8Bytes ((e.title.getD "") ++ "|" ++ (e.publishedDate.getD "")))

/-! ## Seen-state, dedup and backfill guard
(ThreatIntelBot.processFeeds / updateState) -/

/-- A record stored in the `seen` map. -/
structure SeenRec where
  timestamp : String
  source : Option String := none
  title : Option String := none
deriving Repr, DecidableEq

/-- Persisted run state (`seen` map as an association list with unique keys,
plus `lastRun`; the `feedStats`/`filterStats`/`version` metadata fields are
not read by any property verified here). -/
structure BotState where
  seen : List (String × SeenRec)
  lastRun : Option String := none
deriving Repr, DecidableEq

/-- Truthiness of `state.seen[entryId]` (records are truthy objects). -/
def seenHas (seen : List (String × SeenRec)) (k : String) : Bool :=
  seen.any fun p => p.1 = k

/-- Embeds `state.seen[id] = v`: overwrite in place or append. -/
def setKey : List (String × SeenRec) → String → SeenRec → List (String × SeenRec)
  | [], k, v => [(k, v)]
  | (k', v') :: rest, k, v =>
      if k' = k then (k', v) :: rest else (k', v') :: setKey rest k v

/-- The orchestrator configuration consulted by the backfill guard.
`maxAgeMs` is `maxBackfillDays * 86400000`; `none` models the `NaN` arising
when `maxBackfillDays` is absent from the configuration. -/
structure RunConfig where
  allowBackfill : Bool := false
  maxAgeMs : Option Nat := none
deriving Repr, DecidableEq

/-- Embeds `const lastRunTs = state.lastRun ? Date.parse(state.lastRun) : 0`. -/
def lastRunTsOf (env : JsEnv) (lastRun : Option String) : Option Nat :=
  if strTruthy lastRun then env.dateParse (lastRun.getD "") else some 0

/-- Embeds `const pubTs = entry.publishedDate ? Date.parse(entry.publishedDate) : now`. -/
def pubTsOf (env : JsEnv) (e : Entry) : Option Nat :=
  if strTruthy e.publishedDate then env.dateParse (e.publishedDate.getD "")
  else some env.nowMs

/-- Embeds `if (lastRunTs && pubTs < lastRunTs) return false`. -/
def olderThanLastRun (env : JsEnv) (lastRunTs : Option Nat) (e : Entry) : Bool :=
  natTruthy lastRunTs && jsLt (pubTsOf env e) lastRunTs

/-- Embeds `if (pubTs && now - pubTs > maxAgeMs) return false` (with `NaN`
comparisons false; a negative JS difference compares like the truncated
natural difference `0` against the non-negative `maxAgeMs`). -/
def tooOld (env : JsEnv) (cfg : RunConfig) (e : Entry) : Bool :=
  natTruthy (pubTsOf env e) &&
    match pubTsOf env e, cfg.maxAgeMs with
    | some p, some m => env.nowMs - p > m
    | _, _ => false

/-- The `feedResult.entries.filter(...)` loop of `processFeeds`: intra-run
dedupe via `thisRunIds` (ids are recorded even for entries later rejected),
cross-run dedupe via `state.seen`, then the backfill guard. -/
def newEntriesAux (env : JsEnv) (cfg : RunConfig) (seen : List (String × SeenRec))
    (lastRunTs : Option Nat) : List Entry → List String → List Entry
  | [], _ => []
  | e :: rest, thisRunIds =>
    let entryId := generateEntryId e
    if thisRunIds.contains entryId then newEntriesAux env cfg seen lastRunTs rest thisRunIds
    else
      let thisRunIds' := entryId :: thisRunIds
      if seenHas seen entryId then newEntriesAux env cfg seen lastRunTs rest thisRunIds'
      else if !cfg.allowBackfill &&
          (olderThanLastRun env lastRunTs e || tooOld env cfg e) then
        newEntriesAux env cfg seen lastRunTs rest thisRunIds'
      else e :: newEntriesAux env cfg seen lastRunTs rest thisRunIds'

/-- One feed's contribution to `results.allEntries`: the new-entry filter
followed by the source-enrichment map `{...entry, source: feed.name, ...}`. -/
def processFeedEntries (env : JsEnv) (cfg : RunConfig) (seen : List (String × SeenRec))
    (lastRun : Option String) (feedName : String) (entries : List Entry) : List Entry :=
  (newEntriesAux env cfg seen (lastRunTsOf env lastRun) entries []).map
    fun e => { e with source := some feedName }

/-- Insertion sort by a boolean "in order" relation, modelling
`Array.prototype.sort` as a reordering of the array. -/
def insertSorted (le : α → α → Bool) (a : α) : List α → List α
  | [] => [a]
  | b :: rest => if le a b then a :: b :: rest else b :: insertSorted le a rest

/-- Sort a list by `le` (see `insertSorted`). -/
def sortByKey (le : α → α → Bool) : List α → List α
  | [] => []
  | a :: rest => insertSorted le a (sortByKey le rest)

/-- Comparator of the pruning sort: most recent timestamp first (an
unparseable timestamp compares as `0`, one choice within the unspecified
behaviour of a `NaN`-returning JS comparator). -/
def seenRecLe (env : JsEnv) (a b : String × SeenRec) : Bool :=
  (env.dateParse b.2.timestamp).getD 0 ≤ (env.dateParse a.2.timestamp).getD 0

/-- The marking loop of `updateState`:
`state.seen[generateEntryId(entry)] = {timestamp, source, title}` for every
filtered entry in order. -/
def markSeen (env : JsEnv) (seen : List (String × SeenRec)) (entries : List Entry) :
    List (String × SeenRec) :=
  entries.foldl
    (fun s e => setKey s (generateEntryId e)
      { timestamp := env.nowIso, source := e.source, title := e.title }) seen

/-- Embeds `ThreatIntelBot.updateState` on its inputs `state` and the filtered
entries: mark every filtered entry as seen, stamp `lastRun`, and if more than
1000 entries are tracked keep the 1000 most recent. (The delivery results of
`outputEntries` are not an input of `updateState`.) -/
def updateState (env : JsEnv) (st : BotState) (filteredEntries : List Entry) : BotState :=
  let seen1 := markSeen env st.seen filteredEntries
  let seen2 :=
    if seen1.length > 1000 then (sortByKey (seenRecLe env) seen1).take 1000 else seen1
  { seen := seen2, lastRun := some env.nowIso }

/-! ## Delivery (ThreatIntelBot.outputEntries, per-run cap) -/

/-- The posting loop of `outputEntries`: stop at the per-run cap, count only
successful sends, a failed send is caught and the loop continues. -/
def outputEntriesAux (deliver : Entry → Bool) (postCap : Nat) :
    List Entry → Nat → Nat
  | [], _ => 0
  | e :: rest, postedThisRun =>
    if postedThisRun ≥ postCap then 0
    else if deliver e then 1 + outputEntriesAux deliver postCap rest (postedThisRun + 1)
    else outputEntriesAux deliver postCap rest postedThisRun

/-- Embeds `outputEntries` (live mode) paired with `updateState`, as the `run`
orchestrator performs them: delivery outcomes feed only the posted count,
never the saved state. -/
def deliverAndSave (env : JsEnv) (st : BotState) (filteredEntries : List Entry)
    (deliver : Entry → Bool) (postCap : Nat) : Nat × BotState :=
  (outputEntriesAux deliver postCap filteredEntries 0,
   updateState env st filteredEntries)

/-! ## Teams delivery with 429 backoff (src/post-to-teams.js, postToTeams) -/

/-- One webhook response: success, or a failure with an HTTP status and an
optional `Retry-After` header value (in seconds). -/
inductive TeamsResp
  | ok
  | err (status : Nat) (retryAfter : Option Nat)
deriving Repr, DecidableEq

/-- Outcome of the `postToTeams` retry loop: the returned boolean, the number
of fetch attempts made, and the waits (in ms) performed between attempts. -/
structure PostOutcome where
  success : Bool
  attempts : Nat
  waits : List Nat
deriving Repr, DecidableEq

/-- The `while (attempt <= maxRetries)` body of `postToTeams`. `resp i` is
the response to the fetch made at `attempt = i`. The fuel argument equals
`maxRetries + 1 - attempt`, so fuel `0` is exactly the loop condition
failing (exhausted retries, return `false`). On a 429 with retries left the
wait is `Retry-After * 1000` when the header is present, else the current
delay, and the delay then doubles, capped at 30000 ms. -/
def postLoopAux (resp : Nat → TeamsResp) (maxRetries : Nat) :
    Nat → Nat → Nat → PostOutcome
  | 0, _, _ => { success := false, attempts := 0, waits := [] }
  | fuel + 1, attempt, delayMs =>
    match resp attempt with
    | .ok => { success := true, attempts := 1, waits := [] }
    | .err status retryAfter =>
      if status = 429 ∧ attempt < maxRetries then
        let retryMs := match retryAfter with
          | some s => s * 1000
          | none => delayMs
        let rest := postLoopAux resp maxRetries fuel (attempt + 1) (min (delayMs * 2) 30000)
        { success := rest.success, attempts := rest.attempts + 1,
          waits := retryMs :: rest.waits }
      else { success := false, attempts := 1, waits := [] }

/-- Embeds `postToTeams`'s delivery loop: `attempt = 0`, `delayMs = 1000`,
`maxRetries` defaulting to 5 via `TEAMS_MAX_RETRIES || 5`. -/
def postToTeamsLoop (resp : Nat → TeamsResp) (maxRetries : Nat := 5) : PostOutcome :=
  postLoopAux resp maxRetries (maxRetries + 1) 0 1000

/-! ## Lock acquisition (src/utils/stateManager.js) -/

/-- Contents of a parsed lock file. -/
structure LockData where
  pid : Nat
  timestamp : Nat
  hostname : String
deriving Repr, DecidableEq

/-- The lock file on disk: absent, present but unparseable (`JSON.parse`
throws), or present with parsed data. -/
inductive LockFile
  | absent
  | corrupt
  | held (d : LockData)
deriving Repr, DecidableEq

/-- The environment of one `StateManager` locking session: clock, own pid and
hostname, liveness of pids on this host (`process.kill(pid, 0)` succeeding),
and the configured timeout/retry bounds. -/
structure LockEnv where
  nowMs : Nat
  selfPid : Nat
  selfHost : String
  alive : Nat → Bool
  lockTimeout : Nat := 30000
  maxRetries : Nat := 50

/-- Embeds `StateManager.isLockValid`, with the lock-file state it leaves behind:
a missing or unparseable file reports invalid (the `catch` branch) without
deleting anything; an expired lock or a same-host lock whose pid is gone is
unlinked and reported invalid; otherwise the lock is valid. -/
def isLockValid (env : LockEnv) : LockFile → Bool × LockFile
  | .absent => (false, .absent)
  | .corrupt => (false, .corrupt)
  | .held d =>
    if env.nowMs - d.timestamp > env.lockTimeout then (false, .absent)
    else if d.hostname = env.selfHost then
      if env.alive d.pid then (true, .held d) else (false, .absent)
    else (true, .held d)

/-- The retry loop of `StateManager.acquireLock`: while attempts remain,
a valid lock means sleep and retry; otherwise try the exclusive create
(`flag: 'wx'`), which fails `EEXIST` when a file is still present (the
unlinked-if-stale file is gone, a corrupt one is not); after `maxRetries`
attempts the lock-acquisition error is thrown. -/
def acquireLockAux (env : LockEnv) : Nat → LockFile → Except String LockFile
  | 0, _ => .error ("Failed to acquire lock after " ++ toString env.maxRetries ++ " attempts")
  | n + 1, lf =>
    let r := isLockValid env lf
    if r.1 then acquireLockAux env n r.2
    else if r.2 = .absent then
      .ok (.held { pid := env.selfPid, timestamp := env.nowMs, hostname := env.selfHost })
    else acquireLockAux env n r.2

/-- Embeds `StateManager.acquireLock` (returns the lock file it installed; the JS
function returns `true` exactly on the `.ok` branch). -/
def acquireLock (env : LockEnv) (lf : LockFile) : Except String LockFile :=
  acquireLockAux env env.maxRetries lf

/-! ## Atomic save (src/utils/stateManager.js, saveStateFile) -/

/-- File-system operations issued by `saveStateFile`. `mkdirp` only affects
directories, never a file's contents. -/
inductive FsOp
  | mkdirp (dir : String)
  | write (path content : String)
  | rename (src dst : String)
deriving Repr, DecidableEq

/-- A file system as a map from paths to file contents. -/
def FsMap := String → Option String

/-- Effect of one operation on file contents (`rename` moves atomically). -/
def applyOp (fs : FsMap) : FsOp → FsMap
  | .mkdirp _ => fs
  | .write p c => fun q => if q = p then some c else fs q
  | .rename src dst => fun q =>
      if q = dst then fs src else if q = src then none else fs q

/-- Apply a list of operations in order. -/
def applyOps (ops : List FsOp) (fs : FsMap) : FsMap := ops.foldl applyOp fs

/-- The success-path operation sequence of `StateManager.saveStateFile`:
ensure the directory, write the serialized state to `filePath + '.tmp'`,
rename the temp file over the primary. `dirOf` abstracts `path.dirname`. -/
def saveStateFileOps (dirOf : String → String) (filePath content : String) : List FsOp :=
  [.mkdirp (dirOf filePath),
   .write (filePath ++ ".tmp") content,
   .rename (filePath ++ ".tmp") filePath]

/-- The file system after a crash during the operation sequence: the first
`k` operations completed; if the next operation is a `write`, it may have
flushed only a prefix of its content (length `plen`). Renames and directory
creations are atomic, so a crash inside them leaves the prefix state. -/
def crashFs (ops : List FsOp) (fs : FsMap) (k plen : Nat) : FsMap :=
  let fs' := applyOps (ops.take k) fs
  match ops.get? k with
  | some (.write p c) => fun q => if q = p then some (c.take plen) else fs' q
  | _ => fs'

/-- Does an operation mutate the file at the given path? -/
def opTouches (p : String) : FsOp → Bool
  | .mkdirp _ => false
  | .write q _ => q = p
  | .rename src dst => src = p || dst = p

/-- Embeds `ThreatIntelBot.filterAndClassifyEntries`: keep the entries `filterEntry`
accepts. (`feedFiltersOf` models the `entry.feedConfig.filters` attached at
enrichment; the catch-and-include-unfiltered branch is unreachable in the
pure model, where `filterEntry` never throws.) -/
def filterAndClassifyEntries (env : JsEnv) (fcfg : FilterCfg)
    (feedFiltersOf : Entry → Filters) (entries : List Entry) : List Entry :=
  entries.filterMap fun e => filterEntry env fcfg e (feedFiltersOf e)

/-- The lock-acquisition error message of `acquireLock`. -/
def lockErrMsg (env : LockEnv) : String :=
  "Failed to acquire lock after " ++ toString env.maxRetries ++ " attempts"

/-! ## Concrete instances used by witnesses and counterexamples -/

/-- A webhook returning three 429s (no `Retry-After`) and then succeeding. -/
def threeRateLimitedThenOk : Nat → TeamsResp :=
  fun i => if i < 3 then .err 429 none else .ok

/-- A webhook returning six 429s (no `Retry-After`) and then succeeding. -/
def sixRateLimitedThenOk : Nat → TeamsResp :=
  fun i => if i < 6 then .err 429 none else .ok

/-- A webhook returning one 429 with `Retry-After: 7` and then succeeding. -/
def rateLimitedWithRetryAfter : Nat → TeamsResp :=
  fun i => if i = 0 then .err 429 (some 7) else .ok

/-- A host where every pid is live (so any same-host lock stays valid). -/
def busyLockEnv : LockEnv :=
  { nowMs := 100000, selfPid := 10, selfHost := "host-a", alive := fun _ => true }

/-- A seen map tracking the id `"id-a"`. -/
def seenSample : List (String × SeenRec) := [("id-a", { timestamp := "t0" })]

/-- An entry whose id `"id-a"` is already tracked in `seenSample`. -/
def seenEntrySample : Entry := { guid := some "id-a" }

/-- A never-seen entry with id `"id-b"`. -/
def freshEntrySample : Entry := { guid := some "id-b" }

/-- An environment whose date parser knows two concrete dates. -/
def parseEnv : JsEnv where
  nowMs := 2000000
  nowIso := "2024-02-01T00:00:00.000Z"
  dateParse := fun s =>
    if s = "2024-01-01" then some 1000000
    else if s = "2023-01-01" then some 500000
    else none
  extractIndicators := fun _ => ⟨[], [], [], [], []⟩

/-- A never-seen entry published before `parseEnv`'s last-run date. -/
def staleEntrySample : Entry := { guid := some "g-old", publishedDate := some "2023-01-01" }

/-- A loaded state whose last successful run was `"2024-01-01"`. -/
def stBF : BotState := { seen := [], lastRun := some "2024-01-01" }

/-- A seen map already tracking 1001 ids, enough to trigger pruning. -/
def bigSeen : List (String × SeenRec) :=
  (List.range 1001).map fun i => (toString i, { timestamp := "" })

/-- A loaded state at the retention limit. -/
def prunedSt : BotState := { seen := bigSeen }

/-- The spec's relevance-first example entry. -/
def ransomEntry : Entry := { title := some "Ransomware advisory webinar" }

/-- The spec's relevance-first example policy. -/
def webinarFilters : Filters := { blockedKeywords := some ["webinar"] }

/-- An entry matching a baseline relevance keyword but no configured
required keyword. -/
def secEntry : Entry := { title := some "security advisory" }

/-- An entry matching neither the baseline set nor any required keyword. -/
def noiseEntry : Entry := { title := some "zzz" }

/-! ## Filter Engine theorems -/

/-- Embeds `classifyEntry` never reads the blocked-keyword policy. -/
theorem classifyEntry_blocked_irrel (env : JsEnv) (e : Entry) (f : Filters)
    (b : Option (List String)) :
    classifyEntry env e { f with blockedKeywords := b } = classifyEntry env e f := by
  cases f
  rfl

/-- The blocked-keyword branch of `filterEntry` is unreachable: its guard
`!isRelevant` is false whenever control reaches it, so `filterEntry` is the
same pipeline with that branch removed. -/
theorem filterEntry_elim_blocked (env : JsEnv) (cfg : FilterCfg) (e : Entry)
    (ff : Filters) :
    filterEntry env cfg e ff =
      (let filters := mergeFilters cfg.globalFilters ff
       if !checkAge env e filters.maxAge then none
       else if !(hasRequiredKeywords e filters.requiredKeywords
                 || hasRequiredKeywords e (some relevantKeywords)) then none
       else
         let c := classifyEntry env e filters
         if cfg.mutedTypes.contains c.threatType then none
         else if !meetsSeverityRequirement c.severity filters.minimumSeverity then none
         else some { e with
                     classification := some c
                     filtered := true
                     filterTimestamp := some env.nowIso }) := by
  unfold filterEntry
  cases hrel : (hasRequiredKeywords e (mergeFilters cfg.globalFilters ff).requiredKeywords
      || hasRequiredKeywords e (some relevantKeywords)) <;>
    simp [hrel]

/-- C10. Implicit: the `blockedKeywords` policy setting has no effect at all
on filtering — for every entry and every pair of filter configurations
(global and per-feed) that differ only in their `blockedKeywords` lists,
`filterEntry` returns the same result, because the branch that rejects on
blocked keywords is guarded by a condition that is false whenever it is
reached. -/
theorem blocked_keywords_no_effect (env : JsEnv) (cfg : FilterCfg) (e : Entry)
    (ff : Filters) (b₁ b₂ b₃ b₄ : Option (List String)) :
    filterEntry env { cfg with globalFilters := { cfg.globalFilters with blockedKeywords := b₁ } }
      e { ff with blockedKeywords := b₂ }
  = filterEntry env { cfg with globalFilters := { cfg.globalFilters with blockedKeywords := b₃ } }
      e { ff with blockedKeywords := b₄ } := by
  obtain ⟨⟨m, rq, bk, ms, pk⟩, muted⟩ := cfg
  obtain ⟨fm, fr, fb, fms, fpk⟩ := ff
  rw [filterEntry_elim_blocked, filterEntry_elim_blocked]
  simp [mergeFilters, classifyEntry]

/-- C3. Relevance-first filtering: an entry matching at least one required or
baseline relevance keyword is never rejected because of a blocked-keyword
match — its `filterEntry` result is the one computed with no blocked
keywords at all; in particular the entry `"Ransomware advisory webinar"`
under a policy with `blockedKeywords = ["webinar"]` (the baseline keyword
`"ransomware"` being present) is accepted. -/
theorem relevance_first_filtering :
    (∀ (env : JsEnv) (cfg : FilterCfg) (e : Entry) (ff : Filters),
      (hasRequiredKeywords e (mergeFilters cfg.globalFilters ff).requiredKeywords
        || hasRequiredKeywords e (some relevantKeywords)) = true →
      filterEntry env cfg e ff
        = filterEntry env { cfg with globalFilters :=
              { cfg.globalFilters with blockedKeywords := none } }
            e { ff with blockedKeywords := none })
  ∧ (filterEntry sampleEnv {} ransomEntry webinarFilters).isSome = true := by
  constructor
  · intro env cfg e ff _
    have h := blocked_keywords_no_effect env cfg e ff
      cfg.globalFilters.blockedKeywords ff.blockedKeywords none none
    simpa using h
  · rfl

/-- Witness for C3 at a concrete input: the example entry is relevant, and
its filter result coincides with the blocked-keyword-free result. -/
theorem relevance_first_filtering_witness :
    (hasRequiredKeywords ransomEntry
        (mergeFilters ({} : FilterCfg).globalFilters webinarFilters).requiredKeywords
      || hasRequiredKeywords ransomEntry (some relevantKeywords)) = true
  ∧ filterEntry sampleEnv {} ransomEntry webinarFilters
      = filterEntry sampleEnv
          { ({} : FilterCfg) with globalFilters :=
              { ({} : FilterCfg).globalFilters with blockedKeywords := none } }
          ransomEntry
          { webinarFilters with blockedKeywords := none } :=
  ⟨rfl, relevance_first_filtering.1 sampleEnv {} ransomEntry webinarFilters rfl⟩

/-- C4 counterexample: the entry `"security advisory"` matches none of the
configured `requiredKeywords = ["quantum"]`, yet `filterEntry` accepts it
(the baseline relevance set is OR-ed in even when `requiredKeywords` is
configured and non-empty), refuting the claim that such an entry is
rejected as irrelevant. -/
theorem required_keywords_gating_counterexample :
    (filterEntry sampleEnv {} secEntry { requiredKeywords := some ["quantum"] }).isSome = true
  ∧ hasRequiredKeywords secEntry (some ["quantum"]) = false :=
  ⟨rfl, rfl⟩

/-- C4 (amended). When a source configures `requiredKeywords`, the relevance
check ORs that list's match with the baseline relevance set (the baseline
does not apply only in its absence): an entry matching none of the
configured required keywords *and* none of the baseline relevance keywords
is rejected by `filterEntry`. -/
theorem required_keywords_gating_amended (env : JsEnv) (cfg : FilterCfg) (e : Entry)
    (ff : Filters)
    (h1 : hasRequiredKeywords e (mergeFilters cfg.globalFilters ff).requiredKeywords = false)
    (h2 : hasRequiredKeywords e (some relevantKeywords) = false) :
    filterEntry env cfg e ff = none := by
  rw [filterEntry_elim_blocked]
  simp [h1, h2]

/-- Witness for the amended C4 at a concrete input. -/
theorem required_keywords_gating_amended_witness :
    hasRequiredKeywords noiseEntry
        (mergeFilters ({} : FilterCfg).globalFilters
          { requiredKeywords := some ["quantum"] }).requiredKeywords = false
  ∧ hasRequiredKeywords noiseEntry (some relevantKeywords) = false
  ∧ filterEntry sampleEnv {} noiseEntry { requiredKeywords := some ["quantum"] } = none :=
  ⟨rfl, rfl,
    required_keywords_gating_amended sampleEnv {} noiseEntry
      { requiredKeywords := some ["quantum"] } rfl rfl⟩

/-! ## Delivery backoff theorems -/

/-- C5. Rate-limit backoff: with the default max retries of 5, three
consecutive 429 responses followed by a success give exactly 4 delivery
attempts and a `true` return; each 429 with retries left waits
`Retry-After * 1000` ms when the header is present, and otherwise the
current delay, which then doubles capped at 30000 ms (the six-429 run
exhibits the doubling sequence saturating at the cap). -/
theorem rate_limit_backoff :
    postToTeamsLoop threeRateLimitedThenOk 5
      = { success := true, attempts := 4, waits := [1000, 2000, 4000] }
  ∧ (∀ (resp : Nat → TeamsResp) (maxRetries fuel attempt delayMs s : Nat),
      attempt < maxRetries → resp attempt = .err 429 (some s) →
      postLoopAux resp maxRetries (fuel + 1) attempt delayMs
        = (let rest := postLoopAux resp maxRetries fuel (attempt + 1)
              (min (delayMs * 2) 30000)
           { success := rest.success, attempts := rest.attempts + 1,
             waits := s * 1000 :: rest.waits }))
  ∧ (∀ (resp : Nat → TeamsResp) (maxRetries fuel attempt delayMs : Nat),
      attempt < maxRetries → resp attempt = .err 429 none →
      postLoopAux resp maxRetries (fuel + 1) attempt delayMs
        = (let rest := postLoopAux resp maxRetries fuel (attempt + 1)
              (min (delayMs * 2) 30000)
           { success := rest.success, attempts := rest.attempts + 1,
             waits := delayMs :: rest.waits }))
  ∧ postToTeamsLoop sixRateLimitedThenOk 10
      = { success := true, attempts := 7, waits := [1000, 2000, 4000, 8000, 16000, 30000] }
  ∧ postToTeamsLoop rateLimitedWithRetryAfter 5
      = { success := true, attempts := 2, waits := [7000] } := by
  refine ⟨rfl, ?_, ?_, rfl, rfl⟩
  · intro resp maxRetries fuel attempt delayMs s h hr
    simp only [postLoopAux, hr]
    simp [h]
  · intro resp maxRetries fuel attempt delayMs h hr
    simp only [postLoopAux, hr]
    simp [h]

/-- Witness for C5's backoff-step equations at concrete inputs. -/
theorem rate_limit_backoff_witness :
    (0 < 5)
  ∧ postLoopAux threeRateLimitedThenOk 5 (5 + 1) 0 1000
      = (let rest := postLoopAux threeRateLimitedThenOk 5 5 (0 + 1) (min (1000 * 2) 30000)
         { success := rest.success, attempts := rest.attempts + 1,
           waits := 1000 :: rest.waits })
  ∧ postLoopAux rateLimitedWithRetryAfter 5 (5 + 1) 0 1000
      = (let rest := postLoopAux rateLimitedWithRetryAfter 5 5 (0 + 1) (min (1000 * 2) 30000)
         { success := rest.success, attempts := rest.attempts + 1,
           waits := 7 * 1000 :: rest.waits }) :=
  ⟨by decide,
   rate_limit_backoff.2.2.1 threeRateLimitedThenOk 5 5 0 1000 (by decide) rfl,
   rate_limit_backoff.2.1 rateLimitedWithRetryAfter 5 5 0 1000 7 (by decide) rfl⟩

/-! ## Lock theorems -/

/-- C6 counterexample: an existing lock file whose content cannot be parsed
is not a valid lock (`isLockValid` reports false), yet `acquireLock` still
fails with the lock-acquisition error — the unparseable file is never
deleted, so the exclusive create keeps failing `EEXIST`. This refutes the
claim that *only* a persistently valid foreign lock makes acquisition
fail. -/
theorem stale_lock_only_valid_counterexample :
    acquireLock busyLockEnv .corrupt = .error (lockErrMsg busyLockEnv)
  ∧ (isLockValid busyLockEnv .corrupt).1 = false :=
  ⟨rfl, rfl⟩

/-- An existing lock that `isLockValid` keeps reporting valid (and leaves
in place) makes every retry of the acquisition loop fail, ending in the
lock-acquisition error. -/
theorem acquireLockAux_persistent (env : LockEnv) (lf : LockFile)
    (hv : isLockValid env lf = (true, lf)) :
    ∀ n, acquireLockAux env n lf = .error (lockErrMsg env) := by
  intro n
  induction n with
  | zero => rfl
  | succ n ih => simpa [acquireLockAux, hv] using ih

/-- C6 (amended). A stale lock — older than the timeout, or owned by a
non-existent pid on the same host — is deleted and a fresh lock is created,
`acquireLock` succeeding without error; acquisition fails with the
lock-acquisition error after the bounded retries when the existing lock
stays valid throughout — held by another host, or by a live process on this
host — or when the lock file's content cannot be parsed (the unparseable
file is never deleted, so the exclusive create keeps failing `EEXIST`). -/
theorem stale_lock_reclaim_amended :
    (∀ (env : LockEnv) (d : LockData), 1 ≤ env.maxRetries →
      env.nowMs - d.timestamp > env.lockTimeout →
      acquireLock env (.held d)
        = .ok (.held { pid := env.selfPid, timestamp := env.nowMs,
                       hostname := env.selfHost }))
  ∧ (∀ (env : LockEnv) (d : LockData), 1 ≤ env.maxRetries →
      ¬ env.nowMs - d.timestamp > env.lockTimeout →
      d.hostname = env.selfHost → env.alive d.pid = false →
      acquireLock env (.held d)
        = .ok (.held { pid := env.selfPid, timestamp := env.nowMs,
                       hostname := env.selfHost }))
  ∧ (∀ (env : LockEnv) (d : LockData),
      ¬ env.nowMs - d.timestamp > env.lockTimeout →
      d.hostname ≠ env.selfHost →
      acquireLock env (.held d) = .error (lockErrMsg env))
  ∧ (∀ (env : LockEnv) (d : LockData),
      ¬ env.nowMs - d.timestamp > env.lockTimeout →
      d.hostname = env.selfHost → env.alive d.pid = true →
      acquireLock env (.held d) = .error (lockErrMsg env))
  ∧ (∀ env : LockEnv, acquireLock env .corrupt = .error (lockErrMsg env)) := by
  have corruptAux : ∀ (env : LockEnv) (n : Nat),
      acquireLockAux env n .corrupt = .error (lockErrMsg env) := by
    intro env n
    induction n with
    | zero => rfl
    | succ n ih => simpa [acquireLockAux, isLockValid] using ih
  refine ⟨?_, ?_, ?_, ?_, ?_⟩
  · intro env d hn h
    unfold acquireLock
    rcases hm : env.maxRetries with _ | n
    · omega
    · simp [acquireLockAux, isLockValid, h]
  · intro env d hn h1 h2 h3
    unfold acquireLock
    rcases hm : env.maxRetries with _ | n
    · omega
    · simp [acquireLockAux, isLockValid, h1, h2, h3]
  · intro env d h1 h2
    exact acquireLockAux_persistent env (.held d)
      (by simp [isLockValid, h1, h2]) env.maxRetries
  · intro env d h1 h2 h3
    exact acquireLockAux_persistent env (.held d)
      (by simp [isLockValid, h1, h2, h3]) env.maxRetries
  · intro env
    exact corruptAux env env.maxRetries

/-- Witness for the amended C6: a lock 99999 ms old under a 30000 ms timeout
is reclaimed and acquisition succeeds. -/
theorem stale_lock_reclaim_amended_witness :
    (1 ≤ busyLockEnv.maxRetries)
  ∧ (busyLockEnv.nowMs - 1 > busyLockEnv.lockTimeout)
  ∧ acquireLock busyLockEnv (.held { pid := 3, timestamp := 1, hostname := "other" })
      = .ok (.held { pid := busyLockEnv.selfPid, timestamp := busyLockEnv.nowMs,
                     hostname := busyLockEnv.selfHost }) :=
  ⟨by decide, by decide,
   stale_lock_reclaim_amended.1 busyLockEnv
     { pid := 3, timestamp := 1, hostname := "other" } (by decide) (by decide)⟩

/-! ## Atomic save theorems -/

/-- String concatenation acts on the underlying character lists. -/
theorem strDataAppend (a b : String) : (a ++ b).data = a.data ++ b.data := by
  cases a; cases b; rfl

/-- Appending the `.tmp` suffix always changes the path. -/
theorem tmpPath_ne (s : String) : ¬ (s ++ ".tmp" = s) := by
  intro h
  have hl := congrArg (fun t : String => t.data.length) h
  simp only [strDataAppend, List.length_append, List.length_cons,
    List.length_nil] at hl
  omega

/-- C2. Atomic save: `saveStateFile` writes the serialized state only to the
temporary file and installs it over the primary exclusively by the single
final rename — the rename is the only operation in the sequence touching
the primary path. Consequently, after a crash at any point (any completed
prefix of the sequence, plus a possibly partial in-flight write), the
primary state file holds either exactly its old content or exactly the new
content; and the completed sequence installs the new content. -/
theorem saveStateFile_atomic (dirOf : String → String) (filePath content : String)
    (fs : FsMap) (k plen : Nat) :
    ((crashFs (saveStateFileOps dirOf filePath content) fs k plen) filePath = fs filePath
      ∨ (crashFs (saveStateFileOps dirOf filePath content) fs k plen) filePath
          = some content)
  ∧ (saveStateFileOps dirOf filePath content).filter (opTouches filePath)
      = [.rename (filePath ++ ".tmp") filePath]
  ∧ applyOps (saveStateFileOps dirOf filePath content) fs filePath = some content := by
  have hne : filePath ≠ filePath ++ ".tmp" := fun h => tmpPath_ne filePath h.symm
  have hne' : ¬ (filePath ++ ".tmp" = filePath) := tmpPath_ne filePath
  refine ⟨?_, ?_, ?_⟩
  · rcases k with _ | _ | _ | k
    · left; rfl
    · left
      simp [crashFs, saveStateFileOps, applyOps, applyOp, hne]
    · left
      simp [crashFs, saveStateFileOps, applyOps, applyOp, hne]
    · right
      simp [crashFs, saveStateFileOps, applyOps, applyOp, hne]
  · simp [saveStateFileOps, List.filter, opTouches, hne']
  · simp [saveStateFileOps, applyOps, applyOp, hne]

/-! ## Dedup and backfill lemmas -/

/-- Embeds `generateEntryId` ignores the `source` field added by enrichment. -/
theorem generateEntryId_set_source (e : Entry) (n : Option String) :
    generateEntryId { e with source := n } = generateEntryId e := by
  cases e; rfl

/-- Embeds `generateEntryId` ignores the fields added by filter enhancement. -/
theorem generateEntryId_enhance (e : Entry) (c : Option Classification)
    (b : Bool) (ts : Option String) :
    generateEntryId { e with
                      classification := c
                      filtered := b
                      filterTimestamp := ts } = generateEntryId e := by
  cases e; rfl

/-- Every member of the new-entry filter output has an id that is not in the
loaded `seen` map. -/
theorem mem_newEntriesAux_not_seen (env : JsEnv) (cfg : RunConfig)
    (seen : List (String × SeenRec)) (lrt : Option Nat) :
    ∀ (entries : List Entry) (ids : List String) (x : Entry),
      x ∈ newEntriesAux env cfg seen lrt entries ids →
      seenHas seen (generateEntryId x) = false := by
  intro entries
  induction entries with
  | nil => intro ids x hx; simp [newEntriesAux] at hx
  | cons e rest ih =>
    intro ids x hx
    simp only [newEntriesAux] at hx
    by_cases h1 : ids.contains (generateEntryId e) = true
    · rw [if_pos h1] at hx
      exact ih _ x hx
    · rw [if_neg h1] at hx
      by_cases h2 : seenHas seen (generateEntryId e) = true
      · rw [if_pos h2] at hx
        exact ih _ x hx
      · rw [if_neg h2] at hx
        by_cases h3 : (!cfg.allowBackfill
            && (olderThanLastRun env lrt e || tooOld env cfg e)) = true
        · rw [if_pos h3] at hx
          exact ih _ x hx
        · rw [if_neg h3] at hx
          rcases List.mem_cons.mp hx with rfl | hx'
          · simpa using h2
          · exact ih _ x hx'

/-- New-entry filter output is a subset of the input entries. -/
theorem mem_newEntriesAux_sub (env : JsEnv) (cfg : RunConfig)
    (seen : List (String × SeenRec)) (lrt : Option Nat) :
    ∀ (entries : List Entry) (ids : List String) (x : Entry),
      x ∈ newEntriesAux env cfg seen lrt entries ids → x ∈ entries := by
  intro entries
  induction entries with
  | nil => intro ids x hx; simp [newEntriesAux] at hx
  | cons e rest ih =>
    intro ids x hx
    simp only [newEntriesAux] at hx
    by_cases h1 : ids.contains (generateEntryId e) = true
    · rw [if_pos h1] at hx
      exact List.mem_cons_of_mem _ (ih _ x hx)
    · rw [if_neg h1] at hx
      by_cases h2 : seenHas seen (generateEntryId e) = true
      · rw [if_pos h2] at hx
        exact List.mem_cons_of_mem _ (ih _ x hx)
      · rw [if_neg h2] at hx
        by_cases h3 : (!cfg.allowBackfill
            && (olderThanLastRun env lrt e || tooOld env cfg e)) = true
        · rw [if_pos h3] at hx
          exact List.mem_cons_of_mem _ (ih _ x hx)
        · rw [if_neg h3] at hx
          rcases List.mem_cons.mp hx with rfl | hx'
          · exact List.mem_cons_self _ _
          · exact List.mem_cons_of_mem _ (ih _ x hx')

/-- Every member of the new-entry filter output passed the backfill guard:
with backfill disabled, it is neither older than the last run nor beyond the
maximum age window. -/
theorem mem_newEntriesAux_keep (env : JsEnv) (cfg : RunConfig)
    (seen : List (String × SeenRec)) (lrt : Option Nat) :
    ∀ (entries : List Entry) (ids : List String) (x : Entry),
      x ∈ newEntriesAux env cfg seen lrt entries ids →
      (!cfg.allowBackfill && (olderThanLastRun env lrt x || tooOld env cfg x)) = false := by
  intro entries
  induction entries with
  | nil => intro ids x hx; simp [newEntriesAux] at hx
  | cons e rest ih =>
    intro ids x hx
    simp only [newEntriesAux] at hx
    by_cases h1 : ids.contains (generateEntryId e) = true
    · rw [if_pos h1] at hx
      exact ih _ x hx
    · rw [if_neg h1] at hx
      by_cases h2 : seenHas seen (generateEntryId e) = true
      · rw [if_pos h2] at hx
        exact ih _ x hx
      · rw [if_neg h2] at hx
        by_cases h3 : (!cfg.allowBackfill
            && (olderThanLastRun env lrt e || tooOld env cfg e)) = true
        · rw [if_pos h3] at hx
          exact ih _ x hx
        · rw [if_neg h3] at hx
          rcases List.mem_cons.mp hx with rfl | hx'
          · exact Bool.not_eq_true _ ▸ Bool.of_not_eq_true h3
          · exact ih _ x hx'

/-- Members of `processFeedEntries` are source-enriched members of the
new-entry filter output. -/
theorem mem_processFeedEntries_elim (env : JsEnv) (cfg : RunConfig)
    (seen : List (String × SeenRec)) (lastRun : Option String) (name : String)
    (entries : List Entry) (x : Entry)
    (hx : x ∈ processFeedEntries env cfg seen lastRun name entries) :
    ∃ y, y ∈ newEntriesAux env cfg seen (lastRunTsOf env lastRun) entries []
      ∧ x = { y with source := some name } := by
  unfold processFeedEntries at hx
  rcases List.mem_map.mp hx with ⟨y, hy, rfl⟩
  exact ⟨y, hy, rfl⟩

/-- Every id appearing in a feed's processed output is absent from the
loaded `seen` map. -/
theorem processed_ids_unseen (env : JsEnv) (cfg : RunConfig)
    (seen : List (String × SeenRec)) (lastRun : Option String) (name : String)
    (entries : List Entry) :
    ∀ x ∈ processFeedEntries env cfg seen lastRun name entries,
      seenHas seen (generateEntryId x) = false := by
  intro x hx
  rcases mem_processFeedEntries_elim env cfg seen lastRun name entries x hx with
    ⟨y, hy, rfl⟩
  rw [generateEntryId_set_source]
  exact mem_newEntriesAux_not_seen env cfg seen _ entries [] y hy

/-- C1. Cross-run deduplication: a feed entry whose `generateEntryId` is
already a key of the loaded state's `seen` map is excluded from the run's
new entries by `processFeeds` — no entry with that id reaches the output at
all, so it is never passed to filtering or delivery again given correctly
persisted state. -/
theorem dedup_excludes_seen (env : JsEnv) (cfg : RunConfig)
    (seen : List (String × SeenRec)) (lastRun : Option String) (name : String)
    (entries : List Entry) (e : Entry)
    (h : seenHas seen (generateEntryId e) = true) :
    (∀ x ∈ processFeedEntries env cfg seen lastRun name entries,
        generateEntryId x ≠ generateEntryId e)
  ∧ e ∉ processFeedEntries env cfg seen lastRun name entries := by
  have key := processed_ids_unseen env cfg seen lastRun name entries
  refine ⟨?_, ?_⟩
  · intro x hx heq
    have hfalse := key x hx
    rw [heq, h] at hfalse
    cases hfalse
  · intro he
    have hfalse := key e he
    rw [h] at hfalse
    cases hfalse

/-- Witness for C1: an entry with the already-tracked id `"id-a"` is
excluded from the processed output. -/
theorem dedup_excludes_seen_witness :
    seenHas seenSample (generateEntryId seenEntrySample) = true
  ∧ seenEntrySample ∉ processFeedEntries sampleEnv {} seenSample none "feed"
      [seenEntrySample, freshEntrySample] :=
  ⟨rfl,
   (dedup_excludes_seen sampleEnv {} seenSample none "feed"
      [seenEntrySample, freshEntrySample] seenEntrySample rfl).2⟩

/-! ## Seen-map marking lemmas -/

/-- Setting a key makes it present. -/
theorem seenHas_setKey_self :
    ∀ (s : List (String × SeenRec)) (k : String) (v : SeenRec),
      seenHas (setKey s k v) k = true := by
  intro s k v
  induction s with
  | nil => simp [setKey, seenHas]
  | cons p rest ih =>
    obtain ⟨k', v'⟩ := p
    by_cases h : k' = k
    · subst h
      simp [setKey, seenHas]
    · simpa [setKey, seenHas, h] using ih

/-- Setting a key preserves the presence of other keys. -/
theorem seenHas_setKey_mono :
    ∀ (s : List (String × SeenRec)) (k : String) (v : SeenRec) (q : String),
      seenHas s q = true → seenHas (setKey s k v) q = true := by
  intro s k v q h
  induction s with
  | nil => simp [seenHas] at h
  | cons p rest ih =>
    obtain ⟨k', v'⟩ := p
    by_cases hk : k' = k
    · subst hk
      simpa [setKey, seenHas] using h
    · simp [seenHas, setKey, hk] at h ⊢
      rcases h with h | h
      · exact Or.inl h
      · exact Or.inr (by simpa [seenHas] using ih (by simpa [seenHas] using h))

/-- Setting a different key preserves the absence of a key. -/
theorem seenHas_setKey_false :
    ∀ (s : List (String × SeenRec)) (k : String) (v : SeenRec) (q : String),
      k ≠ q → seenHas s q = false → seenHas (setKey s k v) q = false := by
  intro s k v q hne h
  induction s with
  | nil => simpa [setKey, seenHas] using hne
  | cons p rest ih =>
    obtain ⟨k', v'⟩ := p
    simp [seenHas] at h
    by_cases hk : k' = k
    · subst hk
      simpa [setKey, seenHas] using ⟨h.1, h.2⟩
    · have := ih (by simpa [seenHas] using h.2)
      simpa [setKey, seenHas, hk, h.1] using this

/-- Unfolding `markSeen` one entry at a time. -/
theorem markSeen_cons (env : JsEnv) (s : List (String × SeenRec)) (e : Entry)
    (rest : List Entry) :
    markSeen env s (e :: rest)
      = markSeen env (setKey s (generateEntryId e)
          { timestamp := env.nowIso, source := e.source, title := e.title }) rest := rfl

/-- Embeds `markSeen` never removes a present key. -/
theorem seenHas_markSeen_mono (env : JsEnv) :
    ∀ (l : List Entry) (s : List (String × SeenRec)) (q : String),
      seenHas s q = true → seenHas (markSeen env s l) q = true := by
  intro l
  induction l with
  | nil => intro s q h; exact h
  | cons e rest ih =>
    intro s q h
    rw [markSeen_cons]
    exact ih _ q (seenHas_setKey_mono _ _ _ _ h)

/-- Every marked entry's id is present after `markSeen`. -/
theorem seenHas_markSeen_of_mem (env : JsEnv) :
    ∀ (l : List Entry) (s : List (String × SeenRec)) (e : Entry),
      e ∈ l → seenHas (markSeen env s l) (generateEntryId e) = true := by
  intro l
  induction l with
  | nil => intro s e h; cases h
  | cons a rest ih =>
    intro s e h
    rcases List.mem_cons.mp h with rfl | h'
    · rw [markSeen_cons]
      exact seenHas_markSeen_mono env rest _ _ (seenHas_setKey_self _ _ _)
    · rw [markSeen_cons]
      exact ih _ e h'

/-- Embeds `markSeen` adds no key other than the marked entries' ids. -/
theorem seenHas_markSeen_false (env : JsEnv) :
    ∀ (l : List Entry) (s : List (String × SeenRec)) (q : String),
      seenHas s q = false → (∀ e ∈ l, generateEntryId e ≠ q) →
      seenHas (markSeen env s l) q = false := by
  intro l
  induction l with
  | nil => intro s q h _; exact h
  | cons a rest ih =>
    intro s q h hl
    rw [markSeen_cons]
    exact ih _ q
      (seenHas_setKey_false _ _ _ _ (hl a (List.mem_cons_self _ _)) h)
      (fun e he => hl e (List.mem_cons_of_mem _ he))

/-- Embeds `List.any` over an insertion-sorted list. -/
theorem any_insertSorted (le : α → α → Bool) (p : α → Bool) (a : α) :
    ∀ l : List α, (insertSorted le a l).any p = (p a || l.any p) := by
  intro l
  induction l with
  | nil => simp [insertSorted]
  | cons b rest ih =>
    by_cases h : le a b = true
    · simp [insertSorted, h]
    · simp [insertSorted, h, ih, Bool.or_left_comm]

/-- Sorting does not change `List.any`. -/
theorem any_sortByKey (le : α → α → Bool) (p : α → Bool) :
    ∀ l : List α, (sortByKey le l).any p = l.any p := by
  intro l
  induction l with
  | nil => rfl
  | cons a rest ih => simp [sortByKey, any_insertSorted, ih]

/-- A key present in a prefix is present in the whole list. -/
theorem seenHas_take (s : List (String × SeenRec)) (n : Nat) (q : String)
    (h : seenHas (s.take n) q = true) : seenHas s q = true := by
  unfold seenHas at h ⊢
  rw [List.any_eq_true] at h ⊢
  rcases h with ⟨x, hx, hp⟩
  exact ⟨x, List.take_subset n s hx, hp⟩

/-- Sorting does not change key presence. -/
theorem seenHas_sortByKey (le : (String × SeenRec) → (String × SeenRec) → Bool)
    (s : List (String × SeenRec)) (q : String) :
    seenHas (sortByKey le s) q = seenHas s q := by
  unfold seenHas
  exact any_sortByKey le _ s

/-- Setting a key grows the map by at most one binding. -/
theorem setKey_length :
    ∀ (s : List (String × SeenRec)) (k : String) (v : SeenRec),
      (setKey s k v).length ≤ s.length + 1 := by
  intro s k v
  induction s with
  | nil => simp [setKey]
  | cons p rest ih =>
    obtain ⟨k', v'⟩ := p
    by_cases h : k' = k
    · simp [setKey, h]
    · simp only [setKey, if_neg h, List.length_cons]
      omega

/-- Embeds `markSeen` grows the map by at most one binding per entry. -/
theorem markSeen_length (env : JsEnv) :
    ∀ (l : List Entry) (s : List (String × SeenRec)),
      (markSeen env s l).length ≤ s.length + l.length := by
  intro l
  induction l with
  | nil => intro s; simp [markSeen]
  | cons e rest ih =>
    intro s
    rw [markSeen_cons]
    have h1 := ih (setKey s (generateEntryId e)
      { timestamp := env.nowIso, source := e.source, title := e.title })
    have h2 := setKey_length s (generateEntryId e)
      { timestamp := env.nowIso, source := e.source, title := e.title }
    simp only [List.length_cons]
    omega

/-- Embeds `updateState` leaves an untracked id untracked when no marked entry
carries it (pruning only removes keys). -/
theorem seenHas_updateState_false (env : JsEnv) (st : BotState)
    (accepted : List Entry) (q : String)
    (h1 : seenHas st.seen q = false)
    (h2 : ∀ x ∈ accepted, generateEntryId x ≠ q) :
    seenHas (updateState env st accepted).seen q = false := by
  have key : seenHas (markSeen env st.seen accepted) q = false :=
    seenHas_markSeen_false env accepted st.seen q h1 h2
  unfold updateState
  by_cases h : (markSeen env st.seen accepted).length > 1000
  · simp only [if_pos h]
    cases hq : seenHas ((sortByKey (seenRecLe env) (markSeen env st.seen accepted)).take 1000) q
    · rfl
    · exfalso
      have := seenHas_take _ 1000 q hq
      rw [seenHas_sortByKey] at this
      rw [key] at this
      cases this
  · simp only [if_neg h]
    exact key

/-- With at most 1000 tracked entries no pruning happens, and every marked
entry's id is tracked after `updateState`. -/
theorem seenHas_updateState_true (env : JsEnv) (st : BotState)
    (accepted : List Entry) (e : Entry)
    (he : e ∈ accepted)
    (hlen : st.seen.length + accepted.length ≤ 1000) :
    seenHas (updateState env st accepted).seen (generateEntryId e) = true := by
  have hm := seenHas_markSeen_of_mem env accepted st.seen e he
  have hl : ¬ ((markSeen env st.seen accepted).length > 1000) := by
    have := markSeen_length env accepted st.seen
    omega
  unfold updateState
  simp only [if_neg hl]
  exact hm

/-- Embeds `filterEntry` accepts an entry only as an id-preserving enhancement of
it. -/
theorem filterEntry_some_id (env : JsEnv) (cfg : FilterCfg) (e : Entry)
    (ff : Filters) (x : Entry)
    (h : filterEntry env cfg e ff = some x) :
    generateEntryId x = generateEntryId e := by
  rw [filterEntry_elim_blocked] at h
  simp only at h
  split_ifs at h with h1 h2 h3 h4
  all_goals
    first
      | (cases h
         done)
      | (obtain rfl := Option.some.inj h
         exact generateEntryId_enhance e _ _ _)

/-- Every accepted entry of the filter stage descends, id-preservingly, from
an input entry. -/
theorem mem_filterAndClassify_id (env : JsEnv) (fcfg : FilterCfg)
    (feedFiltersOf : Entry → Filters) (l : List Entry) (x : Entry)
    (hx : x ∈ filterAndClassifyEntries env fcfg feedFiltersOf l) :
    ∃ y ∈ l, generateEntryId x = generateEntryId y := by
  unfold filterAndClassifyEntries at hx
  rcases List.mem_filterMap.mp hx with ⟨y, hy, hf⟩
  exact ⟨y, hy, filterEntry_some_id env fcfg y (feedFiltersOf y) x hf⟩

/-- C8. Backfill guard: with backfill disabled and the loaded state's
`lastRun` parsing to `T ≠ 0`, a never-seen entry whose `publishedDate`
parses to `p < T` is excluded by `processFeeds` (no output entry carries its
id, under the mild assumption that every input entry aliasing its id is
equally stale), and — since `updateState` records only filter-accepted
entries — its id is not added to the `seen` map. -/
theorem backfill_guard (env : JsEnv) (cfg : RunConfig) (st : BotState)
    (name : String) (entries : List Entry) (e : Entry) (s d : String) (T p : Nat)
    (hb : cfg.allowBackfill = false)
    (hlr : st.lastRun = some s) (hs : s ≠ "")
    (hT : env.dateParse s = some T) (hT0 : T ≠ 0)
    (_hd : e.publishedDate = some d) (_hdne : d ≠ "")
    (_hp : env.dateParse d = some p) (_hpT : p < T)
    (halias : ∀ e' ∈ entries, generateEntryId e' = generateEntryId e →
       ∃ d' p', e'.publishedDate = some d' ∧ d' ≠ ""
         ∧ env.dateParse d' = some p' ∧ p' < T)
    (hseen : seenHas st.seen (generateEntryId e) = false) :
    (∀ x ∈ processFeedEntries env cfg st.seen st.lastRun name entries,
        generateEntryId x ≠ generateEntryId e)
  ∧ e ∉ processFeedEntries env cfg st.seen st.lastRun name entries
  ∧ (∀ (fcfg : FilterCfg) (feedFiltersOf : Entry → Filters),
      seenHas (updateState env st (filterAndClassifyEntries env fcfg feedFiltersOf
          (processFeedEntries env cfg st.seen st.lastRun name entries))).seen
        (generateEntryId e) = false) := by
  have hlrt : lastRunTsOf env st.lastRun = some T := by
    rw [hlr]
    simp [lastRunTsOf, strTruthy, hs, hT]
  have main : ∀ x ∈ processFeedEntries env cfg st.seen st.lastRun name entries,
      generateEntryId x ≠ generateEntryId e := by
    intro x hx heq
    rcases mem_processFeedEntries_elim env cfg st.seen st.lastRun name entries x hx with
      ⟨y, hy, rfl⟩
    rw [generateEntryId_set_source] at heq
    have hykeep := mem_newEntriesAux_keep env cfg st.seen
      (lastRunTsOf env st.lastRun) entries [] y hy
    have hymem := mem_newEntriesAux_sub env cfg st.seen
      (lastRunTsOf env st.lastRun) entries [] y hy
    rcases halias y hymem heq with ⟨d', p', hyd, hydne, hyp, hypT⟩
    have hold : olderThanLastRun env (lastRunTsOf env st.lastRun) y = true := by
      unfold olderThanLastRun
      rw [hlrt]
      unfold pubTsOf
      simp [strTruthy, hyd, hydne, hyp, natTruthy, hT0, jsLt, hypT]
    rw [hb, hold] at hykeep
    simp at hykeep
  refine ⟨main, ?_, ?_⟩
  · intro he
    exact main e he rfl
  · intro fcfg feedFiltersOf
    refine seenHas_updateState_false env st _ _ hseen ?_
    intro x hx heq
    rcases mem_filterAndClassify_id env fcfg feedFiltersOf _ x hx with ⟨y, hy, hid⟩
    exact main y hy (hid ▸ heq)

/-- Witness for C8: a never-seen entry dated `"2023-01-01"` under a state
whose last run parses later is excluded and stays untracked. -/
theorem backfill_guard_witness :
    stBF.lastRun = some "2024-01-01"
  ∧ parseEnv.dateParse "2023-01-01" = some 500000
  ∧ staleEntrySample ∉ processFeedEntries parseEnv {} stBF.seen stBF.lastRun "feed"
      [staleEntrySample]
  ∧ seenHas (updateState parseEnv stBF (filterAndClassifyEntries parseEnv {}
        (fun _ => {}) (processFeedEntries parseEnv {} stBF.seen stBF.lastRun "feed"
          [staleEntrySample]))).seen (generateEntryId staleEntrySample) = false := by
  have h := backfill_guard parseEnv {} stBF "feed" [staleEntrySample] staleEntrySample
    "2024-01-01" "2023-01-01" 1000000 500000 rfl rfl (by decide) rfl (by decide)
    rfl (by decide) rfl (by decide)
    (fun e' he' _ => by
      rw [List.mem_singleton] at he'
      subst he'
      exact ⟨"2023-01-01", 500000, rfl, by decide, rfl, by decide⟩)
    rfl
  exact ⟨rfl, rfl, h.2.1, h.2.2 {} (fun _ => {})⟩

set_option maxRecDepth 40000 in
/-- C9 counterexample: the claim's "never delivered in any later run" fails
once the 1000-entry retention window overflows. With 1001 ids already
tracked, `updateState` marks a freshly accepted entry but its pruning pass
(keep the 1000 most recent) drops that id from the saved map, and a later
run's `processFeeds` lets an entry with the same id through again. -/
theorem update_state_prune_counterexample :
    (freshEntrySample ∈ [freshEntrySample])
  ∧ seenHas (updateState sampleEnv prunedSt [freshEntrySample]).seen
      (generateEntryId freshEntrySample) = false
  ∧ (processFeedEntries sampleEnv {} (updateState sampleEnv prunedSt [freshEntrySample]).seen
        none "feed" [freshEntrySample]).map generateEntryId
      = [generateEntryId freshEntrySample] := by
  refine ⟨by decide, by decide, by decide⟩

/-- C9 (amended). `updateState` marks every filter-accepted entry as seen
unconditionally — the saved state is a function of the loaded state and the
filtered entries alone, identical for any delivery function and post cap
(success, failure, or cap-skip). As long as the resulting map stays within
the 1000-entry retention window, each accepted entry's id is tracked
afterwards and no later run's processed entries carry that id again, so an
accepted but never-delivered entry is deduplicated and never delivered;
past that window the pruning pass may drop freshly marked ids (see the
counterexample). -/
theorem update_state_marks_all_accepted (env : JsEnv) (st : BotState)
    (accepted : List Entry) (e : Entry)
    (he : e ∈ accepted)
    (hlen : st.seen.length + accepted.length ≤ 1000) :
    seenHas (updateState env st accepted).seen (generateEntryId e) = true
  ∧ (∀ (d₁ d₂ : Entry → Bool) (c₁ c₂ : Nat),
      (deliverAndSave env st accepted d₁ c₁).2 = (deliverAndSave env st accepted d₂ c₂).2)
  ∧ (∀ (env₂ : JsEnv) (cfg₂ : RunConfig) (lastRun₂ : Option String) (name₂ : String)
        (entries₂ : List Entry),
      ∀ x ∈ processFeedEntries env₂ cfg₂ (updateState env st accepted).seen
          lastRun₂ name₂ entries₂,
        generateEntryId x ≠ generateEntryId e) := by
  have hmem := seenHas_updateState_true env st accepted e he hlen
  refine ⟨hmem, fun _ _ _ _ => rfl, ?_⟩
  intro env₂ cfg₂ lastRun₂ name₂ entries₂ x hx heq
  have hfalse := processed_ids_unseen env₂ cfg₂ (updateState env st accepted).seen
    lastRun₂ name₂ entries₂ x hx
  rw [heq, hmem] at hfalse
  cases hfalse

/-- Witness for C9: a freshly accepted entry is tracked after `updateState`
regardless of delivery, and excluded from a later run's processed output. -/
theorem update_state_marks_all_accepted_witness :
    (freshEntrySample ∈ [freshEntrySample])
  ∧ (stBF.seen.length + [freshEntrySample].length ≤ 1000)
  ∧ seenHas (updateState sampleEnv stBF [freshEntrySample]).seen
      (generateEntryId freshEntrySample) = true
  ∧ freshEntrySample ∉ processFeedEntries sampleEnv {}
      (updateState sampleEnv stBF [freshEntrySample]).seen none "feed"
      [freshEntrySample] := by
  have h := update_state_marks_all_accepted sampleEnv stBF [freshEntrySample]
    freshEntrySample (by decide) (by decide)
  refine ⟨by decide, by decide, h.1, fun hin => ?_⟩
  exact h.2.2 sampleEnv {} none "feed" [freshEntrySample] freshEntrySample hin rfl

/-! ## Entry identity lemmas -/

/-- Only `/` lowercases to `/`. -/
theorem charLower_slash {c : Char} (h : charLower c = '/') : c = '/' := by
  unfold charLower at h
  by_cases hc : 65 ≤ c.toNat ∧ c.toNat ≤ 90
  · rw [if_pos hc] at h
    have h2 := congrArg Char.toNat h
    have hv : (c.toNat + 32).isValidChar := Or.inl (by omega)
    have h3 : (Char.ofNat (c.toNat + 32)).toNat = c.toNat + 32 := by
      unfold Char.ofNat
      rw [dif_pos hv]
      rfl
    rw [h3] at h2
    have h47 : ('/' : Char).toNat = 47 := rfl
    rw [h47] at h2
    omega
  · rw [if_neg hc] at h
    exact h

/-- The characters of a lowercased string. -/
theorem jsToLower_data (s : String) : (jsToLower s).data = s.data.map charLower := rfl

/-- Lowercasing distributes over concatenation. -/
theorem jsToLower_append (a b : String) :
    jsToLower (a ++ b) = jsToLower a ++ jsToLower b := by
  apply String.ext
  simp only [jsToLower_data, strDataAppend, List.map_append]

/-- Rebuilding a string from its characters is the identity. -/
theorem strMkData (s : String) : (⟨s.data⟩ : String) = s := by cases s; rfl

/-- Stripping after appending a slash to a slash-free-tailed path undoes the
append. -/
theorem stripTrailingSlash_append_slash {s : String}
    (_h : s.data.getLast? ≠ some '/') :
    stripTrailingSlash (s ++ "/") = s := by
  unfold stripTrailingSlash
  rw [strDataAppend s "/"]
  rw [show ("/" : String).data = ['/'] from rfl]
  rw [List.getLast?_concat, if_pos rfl, List.dropLast_concat]

/-- Stripping a path with no trailing slash is the identity. -/
theorem stripTrailingSlash_of_ne {s : String} (h : s.data.getLast? ≠ some '/') :
    stripTrailingSlash s = s := by
  unfold stripTrailingSlash
  rw [if_neg h]

/-- Strings equal up to case strip their trailing slash consistently. -/
theorem jsToLower_strip {p' p : String} (h : jsToLower p' = jsToLower p) :
    jsToLower (stripTrailingSlash p') = jsToLower (stripTrailingSlash p) := by
  have hm : p'.data.map charLower = p.data.map charLower := congrArg String.data h
  have hQ : (p'.data.getLast?).map charLower = (p.data.getLast?).map charLower := by
    rw [← List.getLast?_map, ← List.getLast?_map, hm]
  have hiff : (p'.data.getLast? = some '/') ↔ (p.data.getLast? = some '/') := by
    constructor
    · intro hx
      rw [hx] at hQ
      cases hy : p.data.getLast? with
      | none => rw [hy] at hQ; cases hQ
      | some c =>
        rw [hy] at hQ
        have hc : charLower c = '/' := by
          have h2 := (Option.some.inj hQ).symm
          simpa using h2
        rw [charLower_slash hc]
    · intro hx
      rw [hx] at hQ
      cases hy : p'.data.getLast? with
      | none => rw [hy] at hQ; cases hQ
      | some c =>
        rw [hy] at hQ
        have hc : charLower c = '/' := by
          have h2 := Option.some.inj hQ
          simpa using h2
        rw [charLower_slash hc]
  unfold stripTrailingSlash
  by_cases hp : p.data.getLast? = some '/'
  · rw [if_pos hp, if_pos (hiff.mpr hp)]
    apply String.ext
    simp only [jsToLower_data, List.map_dropLast, hm]
  · rw [if_neg hp, if_neg (fun hx => hp (hiff.mp hx))]
    exact h

/-- Embeds `normalizeUrl` erases the query and fragment. -/
theorem normalizeUrl_search_hash (u : UrlParts) (srch hsh : String) :
    normalizeUrl { u with search := srch, hashFrag := hsh } = normalizeUrl u := by
  obtain ⟨s, h, p, q, f⟩ := u
  rfl

/-- Embeds `normalizeUrl` identifies a path with and without one trailing slash. -/
theorem normalizeUrl_slash (u : UrlParts) (h : u.path.data.getLast? ≠ some '/') :
    normalizeUrl { u with path := u.path ++ "/" } = normalizeUrl u := by
  obtain ⟨sch, host, path, srch, hsh⟩ := u
  unfold normalizeUrl
  simp only [serializeUrl]
  rw [stripTrailingSlash_append_slash h, stripTrailingSlash_of_ne h]

/-- Embeds `normalizeUrl` identifies URLs whose components agree up to case. -/
theorem normalizeUrl_case {u' u : UrlParts}
    (hs : jsToLower u'.scheme = jsToLower u.scheme)
    (hh : jsToLower u'.host = jsToLower u.host)
    (hp : jsToLower u'.path = jsToLower u.path) :
    normalizeUrl u' = normalizeUrl u := by
  obtain ⟨s1, h1, p1, q1, f1⟩ := u'
  obtain ⟨s2, h2, p2, q2, f2⟩ := u
  simp only at hs hh hp
  unfold normalizeUrl
  simp only [serializeUrl, jsToLower_append]
  rw [hs, hh, jsToLower_strip hp]

/-- C7. Idempotent stable identity: `generateEntryId` is a deterministic
total function of the entry (repeated computation gives the same value, and
being a Lean function it returns a value on every input); it follows the
priority "truthy guid (trimmed) → normalized link (raw link when `new URL`
throws) → `'h:' +` base64 of `title|publishedDate`"; entries without a
guid whose parsed links differ only in trivial variants — query/fragment,
one trailing slash, or letter case — receive the same id; and entries with
a truthy guid keep their id under any link variation at all. -/
theorem entry_id_stable :
    (∀ r : Entry, generateEntryId r = generateEntryId r)
  ∧ (∀ (e : Entry) (g : String), e.guid = some g → g ≠ "" →
      generateEntryId e = jsTrim g)
  ∧ (∀ (e : Entry) (u : UrlParts), strTruthy e.guid = false →
      e.link = some (.parsed u) → generateEntryId e = normalizeUrl u)
  ∧ (∀ (e : Entry) (s : String), strTruthy e.guid = false →
      e.link = some (.raw s) → s ≠ "" → generateEntryId e = s)
  ∧ (∀ e : Entry, strTruthy e.guid = false → linkTruthy e.link = false →
      generateEntryId e
        = "h:" ++ base64Encode (utf8Bytes
            ((e.title.getD "") ++ "|" ++ (e.publishedDate.getD ""))))
  ∧ (∀ (e : Entry) (u : UrlParts) (srch hsh : String), strTruthy e.guid = false →
      generateEntryId
          { e with link := some (.parsed { u with search := srch, hashFrag := hsh }) }
        = generateEntryId { e with link := some (.parsed u) })
  ∧ (∀ (e : Entry) (u : UrlParts), strTruthy e.guid = false →
      u.path.data.getLast? ≠ some '/' →
      generateEntryId
          { e with link := some (.parsed { u with path := u.path ++ "/" }) }
        = generateEntryId { e with link := some (.parsed u) })
  ∧ (∀ (e : Entry) (u' u : UrlParts), strTruthy e.guid = false →
      jsToLower u'.scheme = jsToLower u.scheme →
      jsToLower u'.host = jsToLower u.host →
      jsToLower u'.path = jsToLower u.path →
      generateEntryId { e with link := some (.parsed u') }
        = generateEntryId { e with link := some (.parsed u) })
  ∧ (∀ (e : Entry) (l₁ l₂ : Option LinkVal), strTruthy e.guid = true →
      generateEntryId { e with link := l₁ }
        = generateEntryId { e with link := l₂ }) := by
  refine ⟨fun _ => rfl, ?_, ?_, ?_, ?_, ?_, ?_, ?_, ?_⟩
  · intro e g hg hne
    simp [generateEntryId, hg, strTruthy, hne]
  · intro e u hguid hlink
    simp [generateEntryId, hguid, hlink, linkTruthy]
  · intro e s hguid hlink hne
    simp [generateEntryId, hguid, hlink, linkTruthy, hne]
  · intro e hguid hlink
    simp [generateEntryId, hguid, hlink]
  · intro e u srch hsh hguid
    simp [generateEntryId, hguid, linkTruthy, normalizeUrl_search_hash u srch hsh]
  · intro e u hguid hpath
    simp [generateEntryId, hguid, linkTruthy, normalizeUrl_slash u hpath]
  · intro e u' u hguid hs hh hp
    simp [generateEntryId, hguid, linkTruthy, normalizeUrl_case hs hh hp]
  · intro e l₁ l₂ hguid
    simp [generateEntryId, hguid]

/-- Witness for C7 at concrete inputs: a guid-less entry's id is the
normalized link, and query variants, one trailing slash and letter case do
not change it. -/
theorem entry_id_stable_witness :
    strTruthy (({} : Entry).guid) = false
  ∧ generateEntryId { ({} : Entry) with link := some (.parsed
        { ({ scheme := "http", host := "example.com", path := "/path" } : UrlParts) with
          search := "?utm_source=x", hashFrag := "#frag" }) }
      = generateEntryId { ({} : Entry) with link := some (.parsed
        { scheme := "http", host := "example.com", path := "/path" }) }
  ∧ generateEntryId { ({} : Entry) with link := some (.parsed
        { ({ scheme := "http", host := "example.com", path := "/path" } : UrlParts) with
          path := "/path" ++ "/" }) }
      = generateEntryId { ({} : Entry) with link := some (.parsed
        { scheme := "http", host := "example.com", path := "/path" }) }
  ∧ generateEntryId { ({} : Entry) with link := some (.parsed
        { scheme := "HTTP", host := "Example.COM", path := "/Path" }) }
      = generateEntryId { ({} : Entry) with link := some (.parsed
        { scheme := "http", host := "example.com", path := "/path" }) }
  ∧ generateEntryId { ({ guid := some "G-1" } : Entry) with
        link := some (.raw "https://a.example/x") }
      = generateEntryId { ({ guid := some "G-1" } : Entry) with link := none } :=
  ⟨rfl,
   entry_id_stable.2.2.2.2.2.1 {}
     { scheme := "http", host := "example.com", path := "/path" }
     "?utm_source=x" "#frag" rfl,
   entry_id_stable.2.2.2.2.2.2.1 {}
     { scheme := "http", host := "example.com", path := "/path" } rfl (by decide),
   entry_id_stable.2.2.2.2.2.2.2.1 {}
     { scheme := "HTTP", host := "Example.COM", path := "/Path" }
     { scheme := "http", host := "example.com", path := "/path" } rfl rfl rfl rfl,
   entry_id_stable.2.2.2.2.2.2.2.2 { guid := some "G-1" }
     (some (.raw "https://a.example/x")) none rfl⟩

end TIFeed
